import Mathlib

/-
Verification of the classification/dispatch pipeline, the terrain synthesizer
and the progress coalescer of `src/data_processing.rs` (`generate_world`).

Modelling conventions:
* Machine integers (`i32`, `u64`, vertical coordinates) are modelled as `Int`
  or `Nat`; the grid extents are far below any overflow boundary.
* The `f64` progress percentages are modelled as exact rationals (`ℚ`);
  `f64 as i32` truncation toward zero is `f64ToI32`.
* The element tag map (`HashMap<String, String>`) is a key-unique association
  list; `contains_key` is `hasKey`, `get` is `List.lookup`.
* The feature generators are external collaborators: the classifier is
  modelled by the choice (`Option Generator`) it makes per element, and their
  accumulated world writes are abstracted into an occupancy predicate
  `blockAt` that the terrain sweep queries (`editor.block_at`).
* The voxel sink (`WorldEditor`) is repository code outside the provided
  sources; its operations are recorded as an explicit trace of `SinkOp`
  values, and their effect `applyOp` is modelled from the spec (§6).
-/

namespace Arnis

/-- Tag mapping of one OSM element: string keys (unique) to string values. -/
abbrev Tags := List (String × String)

/-- Rust `tags.contains_key k`. -/
def hasKey (tags : Tags) (k : String) : Bool :=
  (tags.lookup k).isSome

/-- The feature generators of `element_processing`, one per dispatch target of
`generate_world` (lines 61-116).  They are external collaborators; the model
only records which one the classifier invokes. -/
inductive Generator
  | buildings
  | highways
  | landuse
  | natural
  | amenities
  | leisure
  | barriers
  | waterways
  | railways
  | aeroway
  | siding
  | doors
  | tourisms
  | buildingFromRelation
  | waterAreas
  | leisureFromRelation
  deriving DecidableEq

/-- Modelled from the spec: `ProcessedElement` (from `osm_parser`, outside the
provided sources) is a tagged variant over way / node / relation carrying a
stable identity and a tag mapping; the dispatch reads only the variant and the
tags. -/
inductive Element
  | way (id : Nat) (tags : Tags)
  | node (id : Nat) (tags : Tags)
  | relation (id : Nat) (tags : Tags)
  deriving DecidableEq

/-- The classifier/dispatcher: the `match element` if/else chains of
`generate_world` lines 61-116.  `none` means no generator is invoked (either
no predicate matched, or the `bridge` branch, whose generator call is
commented out in the source, matched). -/
def classify : Element → Option Generator
  | Element.way _ tags =>
    if hasKey tags "building" || hasKey tags "building:part" then some Generator.buildings
    else if hasKey tags "highway" then some Generator.highways
    else if hasKey tags "landuse" then some Generator.landuse
    else if hasKey tags "natural" then some Generator.natural
    else if hasKey tags "amenity" then some Generator.amenities
    else if hasKey tags "leisure" then some Generator.leisure
    else if hasKey tags "barrier" then some Generator.barriers
    else if hasKey tags "waterway" then some Generator.waterways
    else if hasKey tags "bridge" then none
    else if hasKey tags "railway" then some Generator.railways
    else if hasKey tags "aeroway" || hasKey tags "area:aeroway" then some Generator.aeroway
    else if tags.lookup "service" == some "siding" then some Generator.siding
    else none
  | Element.node _ tags =>
    if hasKey tags "door" || hasKey tags "entrance" then some Generator.doors
    else if hasKey tags "natural" && (tags.lookup "natural" == some "tree") then
      some Generator.natural
    else if hasKey tags "amenity" then some Generator.amenities
    else if hasKey tags "barrier" then some Generator.barriers
    else if hasKey tags "highway" then some Generator.highways
    else if hasKey tags "tourism" then some Generator.tourisms
    else none
  | Element.relation _ tags =>
    if hasKey tags "building" || hasKey tags "building:part" then
      some Generator.buildingFromRelation
    else if hasKey tags "water" then some Generator.waterAreas
    else if tags.lookup "leisure" == some "park" then some Generator.leisureFromRelation
    else none

/-- The spec's view of the way/area dispatch: an ordered table of
(predicate, invoked generator) pairs, in the fixed priority order of §4.1;
the `bridge` entry is the documented no-op placeholder. -/
def wayDispatchTable : List ((Tags → Bool) × Option Generator) :=
  [(fun t => hasKey t "building" || hasKey t "building:part", some Generator.buildings),
   (fun t => hasKey t "highway", some Generator.highways),
   (fun t => hasKey t "landuse", some Generator.landuse),
   (fun t => hasKey t "natural", some Generator.natural),
   (fun t => hasKey t "amenity", some Generator.amenities),
   (fun t => hasKey t "leisure", some Generator.leisure),
   (fun t => hasKey t "barrier", some Generator.barriers),
   (fun t => hasKey t "waterway", some Generator.waterways),
   (fun t => hasKey t "bridge", none),
   (fun t => hasKey t "railway", some Generator.railways),
   (fun t => hasKey t "aeroway" || hasKey t "area:aeroway", some Generator.aeroway),
   (fun t => t.lookup "service" == some "siding", some Generator.siding)]

/-- First-match evaluation of an ordered dispatch table: the generator slot of
the first predicate that holds, `none` when no predicate matches. -/
def firstMatch (table : List ((Tags → Bool) × Option Generator)) (tags : Tags) :
    Option Generator :=
  match table.find? fun pg => pg.1 tags with
  | some pg => pg.2
  | none => none

/-- `pub const MIN_Y: i32 = -64;` (line 12). -/
def MIN_Y : Int := -64

/-- The block kinds `generate_world` itself writes (`block_definitions`). -/
inductive Block
  | bedrock
  | dirt
  | grassBlock
  | snowBlock
  | stone
  deriving DecidableEq

/-- One recorded operation against the voxel sink (`WorldEditor`):
`set_block` with its exclusion filter, `fill_blocks`, and `save`. -/
inductive SinkOp
  | setBlock (b : Block) (x y z : Int) (excl : List Block)
  | fillBlocks (b : Block) (x0 y0 z0 x1 y1 z1 : Int)
  | persist
  deriving DecidableEq

/-- `let groundlayer_block = if args.winter { SNOW_BLOCK } else { GRASS_BLOCK }`
(line 144). -/
def groundlayerBlock (winter : Bool) : Block :=
  if winter then Block.snowBlock else Block.grassBlock

/-- Rust `(start..end).find(pred)` over an integer range, by fuel: the first
`y` in `start, start+1, ...` (`n` candidates) satisfying `blockAt`. -/
def findBlockY (blockAt : Int → Bool) : Int → Nat → Option Int
  | _, 0 => none
  | y, n + 1 => if blockAt y then some y else findBlockY blockAt (y + 1) n

/-- Lines 164-167: the surface seat level of one column, in elevation-aware
mode: the first occupied `y` in `MIN_Y..ground_level`, defaulting to
`ground_level`, clamped by `.min(ground_level)`. -/
def maxYFor (blockAt : Int → Bool) (groundLevel : Int) : Int :=
  min ((findBlockY blockAt MIN_Y (groundLevel - MIN_Y).toNat).getD groundLevel) groundLevel

/-- Lines 161-178: the sink operations of one column of the elevation-aware
sweep: surface block at `max_y`, dirt at `max_y - 1` and `max_y - 2`, and,
when `args.fillground` holds, the stone range fill from `MIN_Y + 1` to
`max_y - 2` and the bedrock floor write excluding `[BEDROCK]`. -/
def columnOpsElev (winter fillground : Bool) (blockAt : Int → Int → Int → Bool)
    (x z gl : Int) : List SinkOp :=
  let maxY := maxYFor (fun y => blockAt x y z) gl
  [SinkOp.setBlock (groundlayerBlock winter) x maxY z [],
   SinkOp.setBlock Block.dirt x (maxY - 1) z [],
   SinkOp.setBlock Block.dirt x (maxY - 2) z []] ++
  (if fillground then
    [SinkOp.fillBlocks Block.stone x (MIN_Y + 1) z x (maxY - 2) z,
     SinkOp.setBlock Block.bedrock x MIN_Y z [Block.bedrock]]
   else [])

/-- Lines 200-204: the sink operations of one column of the flat sweep:
surface block at the oracle level, dirt one below. -/
def columnOpsFlat (winter : Bool) (x z gl : Int) : List SinkOp :=
  [SinkOp.setBlock (groundlayerBlock winter) x gl z [],
   SinkOp.setBlock Block.dirt x (gl - 1) z []]

/-- Rust `0..=(n as i32)` as a list: `[0, 1, ..., n]`, empty when `n < 0`. -/
def intRange (n : Int) : List Int :=
  (List.range (n + 1).toNat).map fun k : Nat => (k : Int)

/-- The iteration sequence of the nested column loops
`for x in 0..=scale_x { for z in 0..=scale_z { ... } }`. -/
def colsVisited (sxi szi : Int) : List (Int × Int) :=
  (intRange sxi).flatMap fun x => (intRange szi).map fun z => (x, z)

/-- Lines 159-191: the elevation-aware column sweep. -/
def groundSweepElev (winter fillground : Bool) (blockAt : Int → Int → Int → Bool)
    (level : Int → Int → Int) (sxi szi : Int) : List SinkOp :=
  (colsVisited sxi szi).flatMap fun p =>
    columnOpsElev winter fillground blockAt p.1 p.2 (level p.1 p.2)

/-- Lines 193-198: the spawn-anchor flattening: the surface block at `y = -62`
for every `x, z` in `0..=20`. -/
def spawnOps (winter : Bool) : List SinkOp :=
  (colsVisited 20 20).map fun p =>
    SinkOp.setBlock (groundlayerBlock winter) p.1 (-62) p.2 []

/-- Lines 199-218: the flat-mode column sweep. -/
def groundSweepFlat (winter : Bool) (level : Int → Int → Int) (sxi szi : Int) :
    List SinkOp :=
  (colsVisited sxi szi).flatMap fun p => columnOpsFlat winter p.1 p.2 (level p.1 p.2)

/-- Lines 147-218: the whole ground-generation phase, selected by
`ground.elevation_enabled`; the spawn flattening runs only in the
elevation-aware branch. -/
def groundOps (elevationEnabled winter fillground : Bool)
    (blockAt : Int → Int → Int → Bool) (level : Int → Int → Int) (sxi szi : Int) :
    List SinkOp :=
  if elevationEnabled then
    groundSweepElev winter fillground blockAt level sxi szi ++ spawnOps winter
  else
    groundSweepFlat winter level sxi szi

/-- World state of the voxel sink: block kind per 3-D coordinate. -/
abbrev World := Int → Int → Int → Option Block

/-- Modelled from the spec: the effect of one `WorldEditor` operation
(`world_editor` is outside the provided sources; §6 specifies point writes
with an optional exclusion filter over the existing block kind, inclusive
axis-aligned range fills, and a state-neutral terminal persist). -/
def applyOp (w : World) : SinkOp → World
  | SinkOp.setBlock b x y z excl => fun a yy c =>
    if a = x ∧ yy = y ∧ c = z then
      match w x y z with
      | some cur => if cur ∈ excl then some cur else some b
      | none => some b
    else w a yy c
  | SinkOp.fillBlocks b x0 y0 z0 x1 y1 z1 => fun a yy c =>
    if x0 ≤ a ∧ a ≤ x1 ∧ y0 ≤ yy ∧ yy ≤ y1 ∧ z0 ≤ c ∧ c ≤ z1 then some b
    else w a yy c
  | SinkOp.persist => w

/-- Left-to-right application of a sink-operation trace to a world state. -/
def applyOps (w : World) (ops : List SinkOp) : World :=
  ops.foldl applyOp w

/-- One increment-then-maybe-emit loop of the GUI progress coalescer
(lines 43-49 and 185-189 / 211-215): each of `n` iterations adds `inc` to the
running percentage and emits it when it moved more than `th` past the last
emitted value. -/
def emitLoop (inc th : ℚ) : Nat → ℚ → ℚ → List ℚ
  | 0, _, _ => []
  | n + 1, current, lastEmitted =>
    if |current + inc - lastEmitted| > th then
      (current + inc) :: emitLoop inc th n (current + inc) (current + inc)
    else emitLoop inc th n (current + inc) lastEmitted

/-- Rust `f64 as i32`: truncation toward zero (saturation is irrelevant at the
magnitudes involved). -/
def f64ToI32 (q : ℚ) : Int :=
  if 0 ≤ q then ⌊q⌋ else ⌈q⌉

/-- The full sequence of percentages handed to `emit_gui_progress_update` in
one run of `generate_world`: 10 (only when `args.terrain`), 11, the throttled
element-phase emissions (increment `49 / elements_count`), 60, the throttled
ground-phase emissions (increment `30 / ((sx + 1) * (sz + 1))`, one iteration
per visited column), and the terminal 100. -/
def guiTrace (terrain : Bool) (elementsCount : Nat) (sx sz : ℚ) : List ℚ :=
  (if terrain then [10] else []) ++ [11] ++
  emitLoop (49 / (elementsCount : ℚ)) (1 / 4) elementsCount 11 11 ++
  [60] ++
  emitLoop (30 / ((sx + 1) * (sz + 1))) (1 / 4)
    ((f64ToI32 sx + 1).toNat * (f64ToI32 sz + 1).toNat) 60 60 ++
  [100]

/-- Line 124: `let batch_size: u64 = (total_blocks / desired_updates).max(1)`. -/
def batchSize (totalBlocks desiredUpdates : Nat) : Nat :=
  max (totalBlocks / desiredUpdates) 1

/-- Lines 180-183 / 206-209: the per-column console-counter increments: after
every `batch`-th processed unit the bar is advanced by `batch`. -/
def consoleLoopIncs (batch : Nat) : Nat → List Nat
  | 0 => []
  | n + 1 => consoleLoopIncs batch n ++ (if (n + 1) % batch = 0 then [batch] else [])

/-- The complete increment sequence of the console step counter for `total`
units: the in-loop batch increments plus the final leftover increment
`block_counter % batch_size` (line 232). -/
def consoleIncs (total desired : Nat) : List Nat :=
  consoleLoopIncs (batchSize total desired) total ++ [total % batchSize total desired]

/-- The `Args` fields `generate_world` reads. -/
structure Args where
  path : String
  debug : Bool
  terrain : Bool
  winter : Bool
  fillground : Bool

/-- Modelled from the spec: the elevation oracle (`ground.rs` is outside the
provided sources) is a pure per-column level function plus the
`elevation_enabled` mode flag (§2, §6). -/
structure Ground where
  elevation_enabled : Bool
  level : Int → Int → Int

/-- Observable outcome of one `generate_world` run: the classifier's choice
per element (in order), the terrain-phase sink-operation trace followed by the
terminal persist, the GUI percentage trace, and the returned result. -/
structure RunResult where
  genCalls : List (Option Generator)
  sinkOps : List SinkOp
  gui : List ℚ
  result : Except String Unit

/-- The shallow embedding of `generate_world` (lines 14-241).  `blockAt` is
the occupancy state the feature generators left in the editor (queried by
`editor.block_at` during the elevation-aware sweep); `persistOutcome` is the
outcome of the sink's persist operation, modelled from the spec (§7) — the
source calls `editor.save();` without inspecting any outcome, then returns
`Ok(())` unconditionally, so the parameter does not influence the run. -/
def generateWorld (elements : List Element) (args : Args) (ground : Ground)
    (blockAt : Int → Int → Int → Bool) (sx sz : ℚ)
    (persistOutcome : Except String Unit) : RunResult :=
  ⟨elements.map classify,
   groundOps ground.elevation_enabled args.winter args.fillground blockAt
     ground.level (f64ToI32 sx) (f64ToI32 sz) ++ [SinkOp.persist],
   guiTrace args.terrain elements.length sx sz,
   Except.ok ()⟩

/-- A sink operation that only the underground fill produces: a range fill, or
a floor (bedrock) write. -/
def isFillOrFloor : SinkOp → Prop
  | SinkOp.setBlock b _ _ _ _ => b = Block.bedrock
  | SinkOp.fillBlocks _ _ _ _ _ _ _ => True
  | SinkOp.persist => False

lemma firstMatch_nil (tags : Tags) : firstMatch [] tags = none := rfl

lemma firstMatch_cons (p : Tags → Bool) (g : Option Generator)
    (rest : List ((Tags → Bool) × Option Generator)) (tags : Tags) :
    firstMatch ((p, g) :: rest) tags = if p tags then g else firstMatch rest tags := by
  unfold firstMatch
  by_cases h : p tags
  · rw [List.find?_cons_of_pos _ (by simpa using h), if_pos h]
  · rw [List.find?_cons_of_neg _ (by simpa using h), if_neg h]

/-- Claim C1: for every element, the classifier invokes at most one feature
generator, namely the one selected by the first matching predicate of the
fixed priority order for ways/areas (building-or-building-part, highway,
landuse, natural, amenity, leisure, barrier, waterway, bridge (no-op),
railway, aeroway-or-area:aeroway, service=siding); in particular an element
tagged both `building` and `highway` is routed to the building generator. -/
theorem c1_classifier_first_match :
    (∀ (i : Nat) (tags : Tags),
        classify (Element.way i tags) = firstMatch wayDispatchTable tags) ∧
    classify (Element.way 1 [("building", "yes"), ("highway", "residential")]) =
      some Generator.buildings := by
  constructor
  · intro i tags
    simp only [wayDispatchTable, firstMatch_cons, firstMatch_nil, classify]
  · rfl

lemma findBlockY_none (blockAt : Int → Bool) :
    ∀ (n : Nat) (s : Int), (∀ y, s ≤ y → y < s + (n : Int) → blockAt y = false) →
      findBlockY blockAt s n = none := by
  intro n
  induction n with
  | zero => intro s _; rfl
  | succ n ih =>
    intro s h
    have h0 : blockAt s = false := h s le_rfl (by omega)
    rw [findBlockY, h0]
    simp only [Bool.false_eq_true, if_false]
    exact ih (s + 1) fun y h1 h2 => h y (by omega) (by omega)

/-- Claim C2: in elevation-aware mode, the surface seat level `max_y` computed
by the existing-block search never exceeds the column's target elevation, and
when no occupied block exists at any `y` with `MIN_Y ≤ y <` target, it equals
the target elevation exactly. -/
theorem c2_topY_bounds (blockAt : Int → Bool) (gl : Int) :
    maxYFor blockAt gl ≤ gl ∧
    ((∀ y, MIN_Y ≤ y → y < gl → blockAt y = false) → maxYFor blockAt gl = gl) := by
  constructor
  · exact min_le_right _ _
  · intro h
    have hn : findBlockY blockAt MIN_Y (gl - MIN_Y).toNat = none := by
      apply findBlockY_none
      intro y h1 h2
      apply h y h1
      omega
    simp [maxYFor, hn]

/-- Witness for C2 at a concrete column: no occupied block anywhere, target
elevation 10. -/
theorem c2_topY_bounds_witness :
    maxYFor (fun _ => false) 10 ≤ 10 ∧ maxYFor (fun _ => false) 10 = 10 :=
  ⟨(c2_topY_bounds (fun _ => false) 10).1,
   (c2_topY_bounds (fun _ => false) 10).2 fun _ _ _ => rfl⟩

lemma consoleLoopIncs_sum (batch : Nat) :
    ∀ n : Nat, (consoleLoopIncs batch n).sum = batch * (n / batch) := by
  intro n
  induction n with
  | zero => simp [consoleLoopIncs]
  | succ n ih =>
    rw [consoleLoopIncs, List.sum_append, ih, Nat.succ_div]
    by_cases h : (n + 1) % batch = 0
    · simp [h, Nat.dvd_iff_mod_eq_zero, Nat.mul_add]
    · simp [h, Nat.dvd_iff_mod_eq_zero]

/-- Claim C7: for any total unit count and any `desiredUpdates ≥ 1`, the
console counter's increments — `batch_size = max(total / desired, 1)` after
every `batch_size`-th unit, plus the final leftover increment — sum exactly
to the total number of units processed. -/
theorem c7_console_batch_sum (total desired : Nat) (hd : 1 ≤ desired) :
    (consoleIncs total desired).sum = total := by
  rw [consoleIncs, List.sum_append, consoleLoopIncs_sum]
  simpa using Nat.div_add_mod total (batchSize total desired)

/-- Witness for C7: 10 units, 3 desired updates. -/
theorem c7_console_batch_sum_witness : (consoleIncs 10 3).sum = 10 :=
  c7_console_batch_sum 10 3 (by decide)

lemma mem_intRange {x n : Int} : x ∈ intRange n ↔ 0 ≤ x ∧ x ≤ n := by
  constructor
  · intro hx
    rcases List.mem_map.1 hx with ⟨k, hk, rfl⟩
    rw [List.mem_range] at hk
    omega
  · rintro ⟨h0, h1⟩
    refine List.mem_map.2 ⟨x.toNat, ?_, by omega⟩
    rw [List.mem_range]
    omega

lemma intRange_nodup (n : Int) : (intRange n).Nodup :=
  List.Nodup.map (fun a b h => by exact_mod_cast h) (List.nodup_range _)

lemma colsVisited_eq_product (a b : Int) :
    colsVisited a b = intRange a ×ˢ intRange b := rfl

lemma mem_colsVisited {x z sxi szi : Int} :
    (x, z) ∈ colsVisited sxi szi ↔ (0 ≤ x ∧ x ≤ sxi) ∧ (0 ≤ z ∧ z ≤ szi) := by
  rw [colsVisited_eq_product, List.mem_product, mem_intRange, mem_intRange]

lemma colsVisited_nodup (a b : Int) : (colsVisited a b).Nodup := by
  rw [colsVisited_eq_product]
  exact (intRange_nodup a).product (intRange_nodup b)

lemma nodup_count_eq_one {α : Type} [BEq α] [LawfulBEq α] {a : α} {l : List α}
    (d : l.Nodup) (h : a ∈ l) : l.count a = 1 := by
  induction l with
  | nil => simp at h
  | cons b t ih =>
    rw [List.count_cons]
    rcases List.mem_cons.1 h with rfl | hmem
    · have hb : a ∉ t := (List.nodup_cons.1 d).1
      rw [List.count_eq_zero.2 hb]
      simp
    · have hne : b ≠ a := by rintro rfl; exact (List.nodup_cons.1 d).1 hmem
      rw [ih (List.nodup_cons.1 d).2 hmem]
      simp [hne]

lemma colsVisited_count {x z sxi szi : Int}
    (hx : 0 ≤ x) (hx2 : x ≤ sxi) (hz : 0 ≤ z) (hz2 : z ≤ szi) :
    (colsVisited sxi szi).count (x, z) = 1 :=
  nodup_count_eq_one (colsVisited_nodup _ _)
    (mem_colsVisited.2 ⟨⟨hx, hx2⟩, hz, hz2⟩)

lemma no_fill_ops_when_disabled (elevationEnabled winter : Bool)
    (blockAt : Int → Int → Int → Bool) (level : Int → Int → Int) (sxi szi : Int) :
    ∀ op ∈ groundOps elevationEnabled winter false blockAt level sxi szi,
      ¬ isFillOrFloor op := by
  have hgl : ∀ (w : Bool) (x y z : Int) (e : List Block),
      ¬ isFillOrFloor (SinkOp.setBlock (groundlayerBlock w) x y z e) := by
    intro w x y z e
    cases w <;> simp [groundlayerBlock, isFillOrFloor]
  intro op hop
  cases elevationEnabled with
  | true =>
    simp only [groundOps, if_pos] at hop
    rcases List.mem_append.1 hop with hs | hs
    · rcases List.mem_flatMap.1 hs with ⟨p, _, hcol⟩
      simp only [columnOpsElev, Bool.false_eq_true, if_false, List.append_nil,
        List.mem_cons, List.not_mem_nil, or_false] at hcol
      rcases hcol with h | h | h <;> subst h
      · exact hgl _ _ _ _ _
      · simp [isFillOrFloor]
      · simp [isFillOrFloor]
    · rcases List.mem_map.1 hs with ⟨p, _, h⟩
      subst h
      exact hgl _ _ _ _ _
  | false =>
    simp only [groundOps, Bool.false_eq_true, if_false] at hop
    rcases List.mem_flatMap.1 hop with ⟨p, _, hcol⟩
    simp only [columnOpsFlat, List.mem_cons, List.not_mem_nil, or_false] at hcol
    rcases hcol with h | h <;> subst h
    · exact hgl _ _ _ _ _
    · simp [isFillOrFloor]

lemma surface_dirt_mem_elev (winter fillground : Bool)
    (blockAt : Int → Int → Int → Bool) (level : Int → Int → Int) (sxi szi x z : Int)
    (hx : 0 ≤ x) (hx2 : x ≤ sxi) (hz : 0 ≤ z) (hz2 : z ≤ szi) :
    SinkOp.setBlock (groundlayerBlock winter) x
        (maxYFor (fun y => blockAt x y z) (level x z)) z [] ∈
      groundSweepElev winter fillground blockAt level sxi szi ∧
    SinkOp.setBlock Block.dirt x
        (maxYFor (fun y => blockAt x y z) (level x z) - 1) z [] ∈
      groundSweepElev winter fillground blockAt level sxi szi := by
  have hp : (x, z) ∈ colsVisited sxi szi := mem_colsVisited.2 ⟨⟨hx, hx2⟩, hz, hz2⟩
  exact ⟨List.mem_flatMap.2 ⟨(x, z), hp, by simp [columnOpsElev]⟩,
         List.mem_flatMap.2 ⟨(x, z), hp, by simp [columnOpsElev]⟩⟩

lemma surface_dirt_mem_flat (winter : Bool) (level : Int → Int → Int) (sxi szi x z : Int)
    (hx : 0 ≤ x) (hx2 : x ≤ sxi) (hz : 0 ≤ z) (hz2 : z ≤ szi) :
    SinkOp.setBlock (groundlayerBlock winter) x (level x z) z [] ∈
      groundSweepFlat winter level sxi szi ∧
    SinkOp.setBlock Block.dirt x (level x z - 1) z [] ∈
      groundSweepFlat winter level sxi szi := by
  have hp : (x, z) ∈ colsVisited sxi szi := mem_colsVisited.2 ⟨⟨hx, hx2⟩, hz, hz2⟩
  exact ⟨List.mem_flatMap.2 ⟨(x, z), hp, by simp [columnOpsFlat]⟩,
         List.mem_flatMap.2 ⟨(x, z), hp, by simp [columnOpsFlat]⟩⟩

/-- Claim C4: for all grid extents `≥ 0` and in both terrain modes, the ground
sweep visits every column of `[0, sxi] × [0, szi]` exactly once, writes at
least one surface block and one subsurface (dirt) block for each such column,
and writes underground fill / floor (bedrock) blocks only when
`args.fillground` is enabled. -/
theorem c4_sweep_coverage (elevationEnabled winter fillground : Bool)
    (blockAt : Int → Int → Int → Bool) (level : Int → Int → Int) (sxi szi x z : Int)
    (hx : 0 ≤ x) (hx2 : x ≤ sxi) (hz : 0 ≤ z) (hz2 : z ≤ szi) :
    (colsVisited sxi szi).count (x, z) = 1 ∧
    (∃ ytop,
      SinkOp.setBlock (groundlayerBlock winter) x ytop z [] ∈
        groundOps elevationEnabled winter fillground blockAt level sxi szi ∧
      SinkOp.setBlock Block.dirt x (ytop - 1) z [] ∈
        groundOps elevationEnabled winter fillground blockAt level sxi szi) ∧
    (∀ op ∈ groundOps elevationEnabled winter false blockAt level sxi szi,
      ¬ isFillOrFloor op) := by
  refine ⟨colsVisited_count hx hx2 hz hz2, ?_,
    no_fill_ops_when_disabled elevationEnabled winter blockAt level sxi szi⟩
  cases elevationEnabled with
  | true =>
    rcases surface_dirt_mem_elev winter fillground blockAt level sxi szi x z
      hx hx2 hz hz2 with ⟨h1, h2⟩
    exact ⟨maxYFor (fun y => blockAt x y z) (level x z),
      by simp only [groundOps, if_pos]; exact List.mem_append_left _ h1,
      by simp only [groundOps, if_pos]; exact List.mem_append_left _ h2⟩
  | false =>
    rcases surface_dirt_mem_flat winter level sxi szi x z hx hx2 hz hz2 with ⟨h1, h2⟩
    exact ⟨level x z,
      by simp only [groundOps, Bool.false_eq_true, if_false]; exact h1,
      by simp only [groundOps, Bool.false_eq_true, if_false]; exact h2⟩

/-- Witness for C4 at a concrete grid: extents 1 × 1, column (0, 0),
elevation-aware mode, fill disabled. -/
theorem c4_sweep_coverage_witness :
    (colsVisited 1 1).count (0, 0) = 1 ∧
    (∃ ytop,
      SinkOp.setBlock (groundlayerBlock false) 0 ytop 0 [] ∈
        groundOps true false false (fun _ _ _ => false) (fun _ _ => 0) 1 1 ∧
      SinkOp.setBlock Block.dirt 0 (ytop - 1) 0 [] ∈
        groundOps true false false (fun _ _ _ => false) (fun _ _ => 0) 1 1) ∧
    (∀ op ∈ groundOps true false false (fun _ _ _ => false) (fun _ _ => 0) 1 1,
      ¬ isFillOrFloor op) :=
  c4_sweep_coverage true false false (fun _ _ _ => false) (fun _ _ => 0) 1 1 0 0
    (by decide) (by decide) (by decide) (by decide)

lemma columnOpsElev_fill (winter : Bool) (blockAt : Int → Int → Int → Bool)
    (x z gl : Int) :
    columnOpsElev winter true blockAt x z gl =
      [SinkOp.setBlock (groundlayerBlock winter) x
         (maxYFor (fun y => blockAt x y z) gl) z [],
       SinkOp.setBlock Block.dirt x (maxYFor (fun y => blockAt x y z) gl - 1) z [],
       SinkOp.setBlock Block.dirt x (maxYFor (fun y => blockAt x y z) gl - 2) z [],
       SinkOp.fillBlocks Block.stone x (MIN_Y + 1) z x
         (maxYFor (fun y => blockAt x y z) gl - 2) z,
       SinkOp.setBlock Block.bedrock x MIN_Y z [Block.bedrock]] := by
  simp [columnOpsElev]

lemma applyOp_setBlock_other (w : World) (b : Block) (x0 y0 z0 : Int)
    (excl : List Block) (x y z : Int) (h : ¬(x = x0 ∧ y = y0 ∧ z = z0)) :
    applyOp w (SinkOp.setBlock b x0 y0 z0 excl) x y z = w x y z := by
  simp only [applyOp, if_neg h]

lemma applyOp_fill_inside (w : World) (b : Block) (x0 y0 z0 x1 y1 z1 x y z : Int)
    (h : x0 ≤ x ∧ x ≤ x1 ∧ y0 ≤ y ∧ y ≤ y1 ∧ z0 ≤ z ∧ z ≤ z1) :
    applyOp w (SinkOp.fillBlocks b x0 y0 z0 x1 y1 z1) x y z = some b := by
  simp only [applyOp, if_pos h]

lemma applyOp_bedrock_self (w : World) (x y z : Int) :
    applyOp w (SinkOp.setBlock Block.bedrock x y z [Block.bedrock]) x y z =
      some Block.bedrock := by
  have hc : x = x ∧ y = y ∧ z = z := ⟨rfl, rfl, rfl⟩
  simp only [applyOp, if_pos hc]
  cases h : w x y z with
  | none => rfl
  | some cur => cases cur <;> simp

/-- Claim C3: in elevation-aware mode with underground fill enabled, the
column's trace carries the bedrock floor write with the `[BEDROCK]` exclusion
filter, applying the column's trace leaves stone at every cell from
`MIN_Y + 1` up to `max_y - 3` inclusive, and leaves bedrock at the floor
level whatever the prior world held there. -/
theorem c3_underground_fill (winter : Bool) (blockAt : Int → Int → Int → Bool)
    (w : World) (x z gl : Int) :
    SinkOp.setBlock Block.bedrock x MIN_Y z [Block.bedrock] ∈
      columnOpsElev winter true blockAt x z gl ∧
    (∀ y, MIN_Y + 1 ≤ y → y ≤ maxYFor (fun yy => blockAt x yy z) gl - 3 →
      applyOps w (columnOpsElev winter true blockAt x z gl) x y z =
        some Block.stone) ∧
    applyOps w (columnOpsElev winter true blockAt x z gl) x MIN_Y z =
      some Block.bedrock := by
  refine ⟨by simp [columnOpsElev], ?_, ?_⟩
  · intro y h1 h2
    rw [columnOpsElev_fill]
    simp only [applyOps, List.foldl_cons, List.foldl_nil]
    rw [applyOp_setBlock_other _ _ _ _ _ _ _ _ _ (by omega)]
    exact applyOp_fill_inside _ _ _ _ _ _ _ _ _ _ _
      ⟨le_refl x, le_refl x, h1, by omega, le_refl z, le_refl z⟩
  · rw [columnOpsElev_fill]
    simp only [applyOps, List.foldl_cons, List.foldl_nil]
    exact applyOp_bedrock_self _ _ _ _

/-- Witness for C3 at a concrete column: empty prior world, no generator
blocks, target elevation 0, checking the stone cell at `y = -60` and the
bedrock floor at `MIN_Y`. -/
theorem c3_underground_fill_witness :
    SinkOp.setBlock Block.bedrock 0 MIN_Y 0 [Block.bedrock] ∈
      columnOpsElev false true (fun _ _ _ => false) 0 0 0 ∧
    applyOps (fun _ _ _ => none) (columnOpsElev false true (fun _ _ _ => false) 0 0 0)
      0 (-60) 0 = some Block.stone ∧
    applyOps (fun _ _ _ => none) (columnOpsElev false true (fun _ _ _ => false) 0 0 0)
      0 MIN_Y 0 = some Block.bedrock := by
  exact ⟨(c3_underground_fill false (fun _ _ _ => false) (fun _ _ _ => none) 0 0 0).1,
   (c3_underground_fill false (fun _ _ _ => false) (fun _ _ _ => none) 0 0 0).2.1 (-60)
     (by decide) (by decide),
   (c3_underground_fill false (fun _ _ _ => false) (fun _ _ _ => none) 0 0 0).2.2⟩

lemma spawnOps_mem (winter : Bool) (op : SinkOp) :
    op ∈ spawnOps winter ↔
      ∃ x z, 0 ≤ x ∧ x ≤ 20 ∧ 0 ≤ z ∧ z ≤ 20 ∧
        op = SinkOp.setBlock (groundlayerBlock winter) x (-62) z [] := by
  simp only [spawnOps, List.mem_map]
  constructor
  · rintro ⟨⟨x, z⟩, hp, rfl⟩
    rcases mem_colsVisited.1 hp with ⟨⟨h1, h2⟩, h3, h4⟩
    exact ⟨x, z, h1, h2, h3, h4, rfl⟩
  · rintro ⟨x, z, h1, h2, h3, h4, rfl⟩
    exact ⟨(x, z), mem_colsVisited.2 ⟨⟨h1, h2⟩, h3, h4⟩, rfl⟩

lemma spawnOps_nodup (winter : Bool) : (spawnOps winter).Nodup := by
  apply List.Nodup.map ?_ (colsVisited_nodup 20 20)
  intro p q h
  cases p
  cases q
  simpa using h

/-- Claim C5: in elevation-aware mode the run appends, after the full column
sweep, the spawn-anchor flattening, whose operations are exactly one surface
write at the fixed elevation `-62` for each of the 21 × 21 columns with
`x, z ∈ [0, 20]`, independent of the computed terrain; in flat mode every
ground operation is one of the two per-column oracle-derived writes, so no
spawn flattening occurs. -/
theorem c5_spawn_flattening (winter fillground : Bool)
    (blockAt : Int → Int → Int → Bool) (level : Int → Int → Int) (sxi szi : Int) :
    groundOps true winter fillground blockAt level sxi szi =
      groundSweepElev winter fillground blockAt level sxi szi ++ spawnOps winter ∧
    (∀ op : SinkOp, op ∈ spawnOps winter ↔
      ∃ x z, 0 ≤ x ∧ x ≤ 20 ∧ 0 ≤ z ∧ z ≤ 20 ∧
        op = SinkOp.setBlock (groundlayerBlock winter) x (-62) z []) ∧
    (∀ x z : Int, 0 ≤ x → x ≤ 20 → 0 ≤ z → z ≤ 20 →
      (spawnOps winter).count
        (SinkOp.setBlock (groundlayerBlock winter) x (-62) z []) = 1) ∧
    (∀ op ∈ groundOps false winter fillground blockAt level sxi szi,
      ∃ x z, 0 ≤ x ∧ x ≤ sxi ∧ 0 ≤ z ∧ z ≤ szi ∧
        (op = SinkOp.setBlock (groundlayerBlock winter) x (level x z) z [] ∨
         op = SinkOp.setBlock Block.dirt x (level x z - 1) z [])) := by
  refine ⟨by simp [groundOps], spawnOps_mem winter, ?_, ?_⟩
  · intro x z h1 h2 h3 h4
    exact nodup_count_eq_one (spawnOps_nodup winter)
      ((spawnOps_mem winter _).2 ⟨x, z, h1, h2, h3, h4, rfl⟩)
  · intro op hop
    simp only [groundOps, Bool.false_eq_true, if_false] at hop
    rcases List.mem_flatMap.1 hop with ⟨⟨x, z⟩, hp, hcol⟩
    rcases mem_colsVisited.1 hp with ⟨⟨h1, h2⟩, h3, h4⟩
    simp only [columnOpsFlat, List.mem_cons, List.not_mem_nil, or_false] at hcol
    exact ⟨x, z, h1, h2, h3, h4, hcol⟩

/-- Witness for C5: the spawn op of column (3, 4) occurs exactly once in the
spawn flattening. -/
theorem c5_spawn_flattening_witness :
    (spawnOps false).count (SinkOp.setBlock (groundlayerBlock false) 3 (-62) 4 []) = 1 :=
  (c5_spawn_flattening false false (fun _ _ _ => false) (fun _ _ => 0) 1 1).2.2.1 3 4
    (by decide) (by decide) (by decide) (by decide)

lemma emitLoop_bounds {inc th : ℚ} (hinc : 0 ≤ inc) (hth : 0 ≤ th) :
    ∀ (n : Nat) (cur last : ℚ), last ≤ cur →
      ∀ v ∈ emitLoop inc th n cur last, last < v ∧ v ≤ cur + n * inc := by
  intro n
  induction n with
  | zero =>
    intro cur last _ v hv
    simp [emitLoop] at hv
  | succ n ih =>
    intro cur last hlc v hv
    rw [emitLoop] at hv
    by_cases h : |cur + inc - last| > th
    · rw [if_pos h] at hv
      have hlt : last < cur + inc := by
        have habs : |cur + inc - last| = cur + inc - last := abs_of_nonneg (by linarith)
        rw [habs] at h
        linarith
      have hstep : (0 : ℚ) ≤ (n : ℚ) * inc := mul_nonneg (Nat.cast_nonneg n) hinc
      rcases List.mem_cons.1 hv with rfl | hv2
      · refine ⟨hlt, ?_⟩
        push_cast
        linarith
      · rcases ih (cur + inc) (cur + inc) le_rfl v hv2 with ⟨h1, h2⟩
        refine ⟨by linarith, ?_⟩
        push_cast
        linarith
    · rw [if_neg h] at hv
      rcases ih (cur + inc) last (by linarith) v hv with ⟨h1, h2⟩
      refine ⟨h1, ?_⟩
      push_cast
      linarith

lemma emitLoop_sorted {inc th : ℚ} (hinc : 0 ≤ inc) (hth : 0 ≤ th) :
    ∀ (n : Nat) (cur last : ℚ), last ≤ cur →
      (emitLoop inc th n cur last).Sorted (· ≤ ·) := by
  intro n
  induction n with
  | zero => intro cur last _; simp [emitLoop]
  | succ n ih =>
    intro cur last hlc
    rw [emitLoop]
    by_cases h : |cur + inc - last| > th
    · rw [if_pos h]
      rw [List.sorted_cons]
      refine ⟨fun b hb => ?_, ih (cur + inc) (cur + inc) le_rfl⟩
      exact le_of_lt (emitLoop_bounds hinc hth n (cur + inc) (cur + inc) le_rfl b hb).1
    · rw [if_neg h]
      exact ih (cur + inc) last (by linarith)

lemma sorted_append_iff {l1 l2 : List ℚ} :
    (l1 ++ l2).Sorted (· ≤ ·) ↔
      l1.Sorted (· ≤ ·) ∧ l2.Sorted (· ≤ ·) ∧ ∀ a ∈ l1, ∀ b ∈ l2, a ≤ b :=
  List.pairwise_append

lemma guiTrace_sorted (t : Bool) (n : Nat) (sx sz : ℚ) (hx : 0 ≤ sx) (hz : 0 ≤ sz) :
    (guiTrace t n sx sz).Sorted (· ≤ ·) := by
  have hincE : (0 : ℚ) ≤ 49 / (n : ℚ) := by positivity
  have hT1 : (1 : ℚ) ≤ (sx + 1) * (sz + 1) := by nlinarith
  have hincG : (0 : ℚ) ≤ 30 / ((sx + 1) * (sz + 1)) := by positivity
  have hth : (0 : ℚ) ≤ 1 / 4 := by norm_num
  have hEub : ∀ v ∈ emitLoop (49 / (n : ℚ)) (1 / 4) n 11 11, 11 < v ∧ v ≤ 60 := by
    intro v hv
    rcases emitLoop_bounds hincE hth n 11 11 le_rfl v hv with ⟨h1, h2⟩
    refine ⟨h1, ?_⟩
    rcases Nat.eq_zero_or_pos n with rfl | hn
    · simp [emitLoop] at hv
    · have hn0 : (n : ℚ) ≠ 0 := Nat.cast_ne_zero.2 hn.ne'
      have hcancel : (n : ℚ) * (49 / (n : ℚ)) = 49 := by field_simp
      linarith
  have hGub : ∀ v ∈ emitLoop (30 / ((sx + 1) * (sz + 1))) (1 / 4)
      ((f64ToI32 sx + 1).toNat * (f64ToI32 sz + 1).toNat) 60 60, 60 < v ∧ v ≤ 90 := by
    intro v hv
    rcases emitLoop_bounds hincG hth _ 60 60 le_rfl v hv with ⟨h1, h2⟩
    refine ⟨h1, ?_⟩
    have hax : f64ToI32 sx = ⌊sx⌋ := if_pos hx
    have haz : f64ToI32 sz = ⌊sz⌋ := if_pos hz
    have hfx : (0 : Int) ≤ ⌊sx⌋ := Int.floor_nonneg.2 hx
    have hfz : (0 : Int) ≤ ⌊sz⌋ := Int.floor_nonneg.2 hz
    have hmT : (((f64ToI32 sx + 1).toNat * (f64ToI32 sz + 1).toNat : Nat) : ℚ) ≤
        (sx + 1) * (sz + 1) := by
      rw [hax, haz]
      have hnx : (0 : Int) ≤ ⌊sx⌋ + 1 := by omega
      have hnz : (0 : Int) ≤ ⌊sz⌋ + 1 := by omega
      have e1 : (((⌊sx⌋ + 1).toNat : Nat) : ℚ) = (⌊sx⌋ : ℚ) + 1 := by
        exact_mod_cast congrArg (fun i : Int => (i : ℚ)) (Int.toNat_of_nonneg hnx)
      have e2 : (((⌊sz⌋ + 1).toNat : Nat) : ℚ) = (⌊sz⌋ : ℚ) + 1 := by
        exact_mod_cast congrArg (fun i : Int => (i : ℚ)) (Int.toNat_of_nonneg hnz)
      rw [Nat.cast_mul, e1, e2]
      have h1 : ((⌊sx⌋ : ℚ) + 1) ≤ sx + 1 := by linarith [Int.floor_le sx]
      have h2 : ((⌊sz⌋ : ℚ) + 1) ≤ sz + 1 := by linarith [Int.floor_le sz]
      have hc : (0 : ℚ) ≤ (⌊sz⌋ : ℚ) + 1 := by exact_mod_cast hnz
      exact mul_le_mul h1 h2 hc (by linarith)
    have h3 : (((f64ToI32 sx + 1).toNat * (f64ToI32 sz + 1).toNat : Nat) : ℚ) *
        (30 / ((sx + 1) * (sz + 1))) ≤
        ((sx + 1) * (sz + 1)) * (30 / ((sx + 1) * (sz + 1))) :=
      mul_le_mul_of_nonneg_right hmT hincG
    have hTne : (sx + 1) * (sz + 1) ≠ 0 := by linarith
    have h4 : ((sx + 1) * (sz + 1)) * (30 / ((sx + 1) * (sz + 1))) = 30 := by
      field_simp
    linarith
  have hEs : (emitLoop (49 / (n : ℚ)) (1 / 4) n 11 11).Sorted (· ≤ ·) :=
    emitLoop_sorted hincE hth n 11 11 le_rfl
  have hGs : (emitLoop (30 / ((sx + 1) * (sz + 1))) (1 / 4)
      ((f64ToI32 sx + 1).toNat * (f64ToI32 sz + 1).toNat) 60 60).Sorted (· ≤ ·) :=
    emitLoop_sorted hincG hth _ 60 60 le_rfl
  have hmid : ∀ b ∈ emitLoop (49 / (n : ℚ)) (1 / 4) n 11 11 ++
      60 :: (emitLoop (30 / ((sx + 1) * (sz + 1))) (1 / 4)
        ((f64ToI32 sx + 1).toNat * (f64ToI32 sz + 1).toNat) 60 60 ++ [100]),
      11 ≤ b := by
    intro b hb
    simp only [List.mem_append, List.mem_cons, List.not_mem_nil, or_false] at hb
    rcases hb with h | h | h | h
    · linarith [(hEub b h).1]
    · rw [h]; norm_num
    · linarith [(hGub b h).1]
    · rw [h]; norm_num
  have hmids : (emitLoop (49 / (n : ℚ)) (1 / 4) n 11 11 ++
      60 :: (emitLoop (30 / ((sx + 1) * (sz + 1))) (1 / 4)
        ((f64ToI32 sx + 1).toNat * (f64ToI32 sz + 1).toNat) 60 60 ++ [100])).Sorted
      (· ≤ ·) := by
    refine sorted_append_iff.2 ⟨hEs, ?_, ?_⟩
    · rw [List.sorted_cons]
      constructor
      · intro b hb
        simp only [List.mem_append, List.mem_cons, List.not_mem_nil, or_false] at hb
        rcases hb with h | h
        · linarith [(hGub b h).1]
        · rw [h]; norm_num
      · refine sorted_append_iff.2 ⟨hGs, by simp, ?_⟩
        intro a ha b hb
        rcases List.mem_singleton.1 hb with rfl
        linarith [(hGub a ha).2]
    · intro a ha b hb
      have ha60 : a ≤ 60 := (hEub a ha).2
      simp only [List.mem_append, List.mem_cons, List.not_mem_nil, or_false] at hb
      rcases hb with h | h | h
      · rw [h]; linarith
      · linarith [(hGub b h).1]
      · rw [h]; linarith
  rw [guiTrace]
  cases t with
  | false =>
    rw [if_neg (by simp)]
    simp only [List.append_assoc, List.singleton_append, List.cons_append, List.nil_append]
    rw [List.sorted_cons]
    exact ⟨hmid, hmids⟩
  | true =>
    rw [if_pos rfl]
    simp only [List.append_assoc, List.singleton_append, List.cons_append, List.nil_append]
    rw [List.sorted_cons]
    constructor
    · intro b hb
      rcases List.mem_cons.1 hb with rfl | hb2
      · norm_num
      · linarith [hmid b hb2]
    · rw [List.sorted_cons]
      exact ⟨hmid, hmids⟩

lemma guiTrace_getLast (t : Bool) (n : Nat) (sx sz : ℚ) :
    (guiTrace t n sx sz).getLast? = some 100 := by
  rw [guiTrace]
  exact List.getLast?_concat _

/-- Claim C6: over any single run with nonnegative scale factors, the
sequence of percentage values handed to the GUI progress sink is
non-decreasing, and the final notified value is exactly 100.  (The `f64`
percentage arithmetic is modelled as exact rational arithmetic.) -/
theorem c6_gui_monotone (elements : List Element) (args : Args) (ground : Ground)
    (blockAt : Int → Int → Int → Bool) (sx sz : ℚ) (p : Except String Unit)
    (hx : 0 ≤ sx) (hz : 0 ≤ sz) :
    ((generateWorld elements args ground blockAt sx sz p).gui).Sorted (· ≤ ·) ∧
    (generateWorld elements args ground blockAt sx sz p).gui.getLast? = some 100 :=
  ⟨guiTrace_sorted args.terrain elements.length sx sz hx hz,
   guiTrace_getLast args.terrain elements.length sx sz⟩

/-- Witness for C6: a concrete run with no elements, terrain flag on and zero
scale factors. -/
theorem c6_gui_monotone_witness :
    ((generateWorld [] ⟨"w", false, true, false, false⟩ ⟨false, fun _ _ => 0⟩
        (fun _ _ _ => false) 0 0 (Except.ok ())).gui).Sorted (· ≤ ·) ∧
    (generateWorld [] ⟨"w", false, true, false, false⟩ ⟨false, fun _ _ => 0⟩
        (fun _ _ _ => false) 0 0 (Except.ok ())).gui.getLast? = some 100 :=
  c6_gui_monotone [] ⟨"w", false, true, false, false⟩ ⟨false, fun _ _ => 0⟩
    (fun _ _ _ => false) 0 0 (Except.ok ()) le_rfl le_rfl

lemma persist_not_mem_columnOpsElev (winter fillground : Bool)
    (blockAt : Int → Int → Int → Bool) (x z gl : Int) :
    SinkOp.persist ∉ columnOpsElev winter fillground blockAt x z gl := by
  cases fillground <;> simp [columnOpsElev]

lemma persist_not_mem_columnOpsFlat (winter : Bool) (x z gl : Int) :
    SinkOp.persist ∉ columnOpsFlat winter x z gl := by
  simp [columnOpsFlat]

lemma groundOps_no_persist (elevationEnabled winter fillground : Bool)
    (blockAt : Int → Int → Int → Bool) (level : Int → Int → Int) (sxi szi : Int) :
    SinkOp.persist ∉ groundOps elevationEnabled winter fillground blockAt level sxi szi := by
  intro hop
  cases elevationEnabled with
  | true =>
    simp only [groundOps, if_pos] at hop
    rcases List.mem_append.1 hop with hs | hs
    · rcases List.mem_flatMap.1 hs with ⟨p, _, hcol⟩
      exact persist_not_mem_columnOpsElev _ _ _ _ _ _ hcol
    · rcases List.mem_map.1 hs with ⟨p, _, h⟩
      simp at h
  | false =>
    simp only [groundOps, Bool.false_eq_true, if_false] at hop
    rcases List.mem_flatMap.1 hop with ⟨p, _, hcol⟩
    exact persist_not_mem_columnOpsFlat _ _ _ _ hcol

lemma generateWorld_sinkOps_count (elements : List Element) (args : Args)
    (ground : Ground) (blockAt : Int → Int → Int → Bool) (sx sz : ℚ)
    (p : Except String Unit) :
    (generateWorld elements args ground blockAt sx sz p).sinkOps.count
      SinkOp.persist = 1 := by
  show (groundOps ground.elevation_enabled args.winter args.fillground blockAt
      ground.level (f64ToI32 sx) (f64ToI32 sz) ++ [SinkOp.persist]).count
      SinkOp.persist = 1
  rw [List.count_append,
    List.count_eq_zero.2 (groundOps_no_persist _ _ _ _ _ _ _)]
  rfl

lemma generateWorld_sinkOps_getLast (elements : List Element) (args : Args)
    (ground : Ground) (blockAt : Int → Int → Int → Bool) (sx sz : ℚ)
    (p : Except String Unit) :
    (generateWorld elements args ground blockAt sx sz p).sinkOps.getLast? =
      some SinkOp.persist :=
  List.getLast?_concat _

/-- Counterexample to claim C9: modelling the sink's persist outcome as a
failure (spec §7), the run still returns `Ok(())` and still emits the
terminal 100 % notification after the persist call — no error is surfaced to
the caller and nothing aborts before the terminal notification, because the
source calls `editor.save();` without inspecting any outcome. -/
theorem c9_persist_failure_counterexample :
    (generateWorld [] ⟨"w", false, false, false, false⟩ ⟨false, fun _ _ => 0⟩
        (fun _ _ _ => false) 0 0 (Except.error "disk full")).result = Except.ok () ∧
    (generateWorld [] ⟨"w", false, false, false, false⟩ ⟨false, fun _ _ => 0⟩
        (fun _ _ _ => false) 0 0 (Except.error "disk full")).gui.getLast? = some 100 ∧
    (generateWorld [] ⟨"w", false, false, false, false⟩ ⟨false, fun _ _ => 0⟩
        (fun _ _ _ => false) 0 0 (Except.error "disk full")).sinkOps.getLast? =
      some SinkOp.persist :=
  ⟨rfl, guiTrace_getLast false 0 0 0, List.getLast?_concat _⟩

/-- Claim C9 (amended): `generate_world` surfaces no error at all — it
returns `Ok(())` unconditionally, invokes persist exactly once as the final
sink operation, and emits the terminal 100 % notification unconditionally
after persist, regardless of the persist outcome. -/
theorem c9_amended_no_error_surfaced (elements : List Element) (args : Args)
    (ground : Ground) (blockAt : Int → Int → Int → Bool) (sx sz : ℚ)
    (p : Except String Unit) :
    (generateWorld elements args ground blockAt sx sz p).result = Except.ok () ∧
    (generateWorld elements args ground blockAt sx sz p).sinkOps.count
      SinkOp.persist = 1 ∧
    (generateWorld elements args ground blockAt sx sz p).sinkOps.getLast? =
      some SinkOp.persist ∧
    (generateWorld elements args ground blockAt sx sz p).gui.getLast? = some 100 :=
  ⟨rfl, generateWorld_sinkOps_count elements args ground blockAt sx sz p,
   generateWorld_sinkOps_getLast elements args ground blockAt sx sz p,
   guiTrace_getLast args.terrain elements.length sx sz⟩

/-- Claim C10: `generate_world` is deterministic — two runs on identical
element sequences, configuration, oracle, generator-left occupancy and scale
factors produce the identical generator-invocation sequence, the identical
sink-write trace (same blocks, coordinates and order), the identical GUI
trace and the identical result; and each run invokes persist exactly once,
as the final sink operation. -/
theorem c10_deterministic (e1 e2 : List Element) (a1 a2 : Args) (g1 g2 : Ground)
    (b1 b2 : Int → Int → Int → Bool) (sx1 sx2 sz1 sz2 : ℚ)
    (p1 p2 : Except String Unit) (he : e1 = e2) (ha : a1 = a2) (hg : g1 = g2)
    (hb : b1 = b2) (hsx : sx1 = sx2) (hsz : sz1 = sz2) (hp : p1 = p2) :
    generateWorld e1 a1 g1 b1 sx1 sz1 p1 = generateWorld e2 a2 g2 b2 sx2 sz2 p2 ∧
    (generateWorld e1 a1 g1 b1 sx1 sz1 p1).sinkOps.count SinkOp.persist = 1 ∧
    (generateWorld e1 a1 g1 b1 sx1 sz1 p1).sinkOps.getLast? = some SinkOp.persist := by
  subst he
  subst ha
  subst hg
  subst hb
  subst hsx
  subst hsz
  subst hp
  exact ⟨rfl, generateWorld_sinkOps_count e1 a1 g1 b1 sx1 sz1 p1,
    generateWorld_sinkOps_getLast e1 a1 g1 b1 sx1 sz1 p1⟩

/-- Witness for C10: two runs on syntactically identical concrete inputs. -/
theorem c10_deterministic_witness :
    generateWorld [] ⟨"w", false, false, false, false⟩ ⟨false, fun _ _ => 0⟩
        (fun _ _ _ => false) 0 0 (Except.ok ()) =
      generateWorld [] ⟨"w", false, false, false, false⟩ ⟨false, fun _ _ => 0⟩
        (fun _ _ _ => false) 0 0 (Except.ok ()) ∧
    (generateWorld [] ⟨"w", false, false, false, false⟩ ⟨false, fun _ _ => 0⟩
        (fun _ _ _ => false) 0 0 (Except.ok ())).sinkOps.count SinkOp.persist = 1 ∧
    (generateWorld [] ⟨"w", false, false, false, false⟩ ⟨false, fun _ _ => 0⟩
        (fun _ _ _ => false) 0 0 (Except.ok ())).sinkOps.getLast? =
      some SinkOp.persist :=
  c10_deterministic [] [] ⟨"w", false, false, false, false⟩
    ⟨"w", false, false, false, false⟩ ⟨false, fun _ _ => 0⟩ ⟨false, fun _ _ => 0⟩
    (fun _ _ _ => false) (fun _ _ _ => false) 0 0 0 0 (Except.ok ()) (Except.ok ())
    rfl rfl rfl rfl rfl rfl rfl

/-- Claim C8: with zero input elements, scale factors 2 × 2 and elevation
disabled, the run completes with `Ok` and reaches the terminal 100 %
notification (the zero-element phase increment `49 / 0` is never consumed
because the element loop body never runs), and the ground phase writes
exactly the 9 columns of `[0, 2] × [0, 2]`, two blocks each — the surface
block at the oracle level and one dirt subsurface block below it — followed
only by the terminal persist. -/
theorem c8_empty_run (args : Args) (level : Int → Int → Int)
    (blockAt : Int → Int → Int → Bool) (p : Except String Unit) :
    (generateWorld [] args ⟨false, level⟩ blockAt 2 2 p).result = Except.ok () ∧
    (generateWorld [] args ⟨false, level⟩ blockAt 2 2 p).genCalls = [] ∧
    (generateWorld [] args ⟨false, level⟩ blockAt 2 2 p).gui.getLast? = some 100 ∧
    (colsVisited (f64ToI32 2) (f64ToI32 2)).length = 9 ∧
    (generateWorld [] args ⟨false, level⟩ blockAt 2 2 p).sinkOps.length = 19 ∧
    (∀ x z : Int, 0 ≤ x → x ≤ 2 → 0 ≤ z → z ≤ 2 →
      SinkOp.setBlock (groundlayerBlock args.winter) x (level x z) z [] ∈
        (generateWorld [] args ⟨false, level⟩ blockAt 2 2 p).sinkOps ∧
      SinkOp.setBlock Block.dirt x (level x z - 1) z [] ∈
        (generateWorld [] args ⟨false, level⟩ blockAt 2 2 p).sinkOps) := by
  have hf2 : f64ToI32 (2 : ℚ) = 2 := by norm_num [f64ToI32]
  have hcols : colsVisited (2 : Int) 2 =
      [(0, 0), (0, 1), (0, 2), (1, 0), (1, 1), (1, 2), (2, 0), (2, 1), (2, 2)] := by
    decide
  refine ⟨rfl, rfl, guiTrace_getLast _ _ _ _, ?_, ?_, ?_⟩
  · rw [hf2, hcols]
    rfl
  · show (groundOps false args.winter args.fillground blockAt level (f64ToI32 2)
        (f64ToI32 2) ++ [SinkOp.persist]).length = 19
    rw [hf2]
    simp only [groundOps, Bool.false_eq_true, if_false, groundSweepFlat, hcols]
    simp [columnOpsFlat]
  · intro x z h1 h2 h3 h4
    have hm := surface_dirt_mem_flat args.winter level 2 2 x z h1 h2 h3 h4
    constructor
    · show _ ∈ groundOps false args.winter args.fillground blockAt level (f64ToI32 2)
          (f64ToI32 2) ++ [SinkOp.persist]
      rw [hf2]
      simp only [groundOps, Bool.false_eq_true, if_false]
      exact List.mem_append_left _ hm.1
    · show _ ∈ groundOps false args.winter args.fillground blockAt level (f64ToI32 2)
          (f64ToI32 2) ++ [SinkOp.persist]
      rw [hf2]
      simp only [groundOps, Bool.false_eq_true, if_false]
      exact List.mem_append_left _ hm.2

/-- Witness for C8 at fully concrete inputs, checking column (1, 2). -/
theorem c8_empty_run_witness :
    (generateWorld [] ⟨"w", false, false, false, false⟩ ⟨false, fun _ _ => -62⟩
        (fun _ _ _ => false) 2 2 (Except.ok ())).result = Except.ok () ∧
    (generateWorld [] ⟨"w", false, false, false, false⟩ ⟨false, fun _ _ => -62⟩
        (fun _ _ _ => false) 2 2 (Except.ok ())).sinkOps.length = 19 ∧
    SinkOp.setBlock (groundlayerBlock false) 1 (-62) 2 [] ∈
      (generateWorld [] ⟨"w", false, false, false, false⟩ ⟨false, fun _ _ => -62⟩
        (fun _ _ _ => false) 2 2 (Except.ok ())).sinkOps :=
  ⟨(c8_empty_run ⟨"w", false, false, false, false⟩ (fun _ _ => -62)
      (fun _ _ _ => false) (Except.ok ())).1,
   (c8_empty_run ⟨"w", false, false, false, false⟩ (fun _ _ => -62)
      (fun _ _ _ => false) (Except.ok ())).2.2.2.2.1,
   ((c8_empty_run ⟨"w", false, false, false, false⟩ (fun _ _ => -62)
      (fun _ _ _ => false) (Except.ok ())).2.2.2.2.2 1 2 (by decide) (by decide)
      (by decide) (by decide)).1⟩

end Arnis
